import Mathlib

/-!
Shallow embedding of the package-resolver core in `src/rez/resolver.py`
(class `Resolver`): the memcache key builder (`_memcache_key`), the cache
lookup (`_get_cached_solve`) and store (`_set_cached_solve`) protocol, the
iterative depth-doubling solver driver (`_solve`), the result application
(`_set_result`), the solver-to-dict projection (`_solver_to_dict`) and the
constructor validation (`__init__`).

External collaborators (the constraint solver, the package repositories and
the memcached client) are modelled as explicit parameters: an `Env` record of
repository functions, a `Cache` as a function from keys to optional entries,
and a solver outcome record.  Opaque values (variant handles, state handles,
graphs) are modelled as natural numbers; Python dicts keyed by package name
are modelled as association lists with insert-or-replace update.
-/

namespace Rez

/-- `ResolverStatus` enum of resolver.py (pending / solved / failed / aborted). -/
inductive ResolverStatus where
  | pending
  | solved
  | failed
  | aborted
deriving DecidableEq, Repr

/-- Status of the external solver after `solver.solve()` (rez.solver.SolverStatus
as consumed by `_solver_to_dict`: unsolved / failed / solved). -/
inductive SolverStatus where
  | unsolved
  | failed
  | solved
deriving DecidableEq, Repr

/-- Opaque variant handle (a nested key/value payload in the source); modelled
as a natural number, consumed only through `Env.getVariant`. -/
abbrev VariantHandle := Nat

/-- Opaque per-variant state handle returned by
`repo.get_variant_state_handle(resource)`; compared only for equality. -/
abbrev StateHandle := Nat

/-- A materialized package variant: `get_variant(handle)` yields an object with
a `name` and a `resource`; the resource is what the owning repository hashes
into a state handle.  The resource is modelled as an opaque number. -/
structure Variant where
  name : String
  resource : Nat
deriving DecidableEq, Repr

/-- The `solver_dict` built by `Resolver._solver_to_dict`: status, graph,
timings, failure description and the resolved variant handles.  `graph`,
`solve_time` and `load_time` are opaque pass-through payloads (numbers here).
`variant_handles` is `None` for non-solved outcomes, hence an `Option`. -/
structure SolverDict where
  status : ResolverStatus
  graph : Nat
  solveTime : Nat
  loadTime : Nat
  failureDescription : Option String
  variantHandles : Option (List VariantHandle)
deriving DecidableEq, Repr

/-- A cached payload: the triple `(solver_dict, release_times_dict,
variant_states_dict)` stored under a memcache key.  The two dicts map package
names to last release times and to variant state handles. -/
structure Entry where
  solverDict : SolverDict
  releaseTimes : List (String × Nat)
  variantStates : List (String × StateHandle)
deriving DecidableEq, Repr

/-- External collaborators of the resolver: variant materialization
(`get_variant`), per-name last release time (`get_last_release_time`),
per-resource variant state handle (`repo.get_variant_state_handle`) and
repository identity (`repo.uid` for a search path). -/
structure Env where
  getVariant : VariantHandle → Variant
  lastReleaseTime : String → List String → Nat
  variantState : Nat → StateHandle
  repoUid : String → String

/-- Configuration and cache-client switches read by the resolver:
`config.resolve_caching`, `config.prune_failed_graph` and
`memcache_client.enabled`. -/
structure Config where
  resolveCaching : Bool
  pruneFailedGraph : Bool
  memcacheEnabled : Bool
deriving DecidableEq, Repr

/-- The mutable state of a `Resolver` instance: constructor arguments plus the
result fields written by `_set_result` (`status_`, `resolved_packages_`,
`failure_description`, `graph_`, timings, `from_cache`).  Package requests are
kept in rendered string form (the key builder applies `str` to each). -/
structure Resolver where
  packageRequests : List String
  packagePaths : List String
  timestamp : Nat
  building : Bool
  caching : Bool
  maxDepth : Int
  startDepth : Int
  status : ResolverStatus
  resolvedPackages : Option (List Variant)
  failureDescription : Option String
  graph : Option Nat
  solveTime : Nat
  loadTime : Nat
  fromCache : Bool
deriving DecidableEq, Repr

/-- `Resolver.__init__`: stores the arguments and asserts
`max_depth >= start_depth` when both depths are nonzero (Python truthiness on
ints); the failed assertion surfaces as a construction error. -/
def mkResolver (packageRequests packagePaths : List String) (timestamp : Nat)
    (building caching : Bool) (maxDepth startDepth : Int) :
    Except String Resolver :=
  if maxDepth ≠ 0 ∧ startDepth ≠ 0 ∧ ¬(startDepth ≤ maxDepth) then
    Except.error "AssertionError"
  else
    Except.ok
      { packageRequests := packageRequests
        packagePaths := packagePaths
        timestamp := timestamp
        building := building
        caching := caching
        maxDepth := maxDepth
        startDepth := startDepth
        status := ResolverStatus.pending
        resolvedPackages := none
        failureDescription := none
        graph := none
        solveTime := 0
        loadTime := 0
        fromCache := false }

/-- A memcache key as built by `Resolver._memcache_key`: the tuple of rendered
request strings, repository uids (in search-path order), `building`,
`config.prune_failed_graph`, `start_depth`, `max_depth`, and - only for the
timestamped variant with a nonzero timestamp - the timestamp itself.  The
optional seventh component models the conditionally appended tuple element. -/
structure Key where
  request : List String
  repoIds : List String
  building : Bool
  pruneFailedGraph : Bool
  startDepth : Int
  maxDepth : Int
  timestamp : Option Nat
deriving DecidableEq, Repr

/-- `Resolver._memcache_key(timestamped)`: builds the fingerprint tuple; the
timestamp element is appended iff `timestamped and self.timestamp` is truthy. -/
def memcacheKey (r : Resolver) (cfg : Config) (env : Env) (timestamped : Bool) :
    Key :=
  { request := r.packageRequests
    repoIds := r.packagePaths.map env.repoUid
    building := r.building
    pruneFailedGraph := cfg.pruneFailedGraph
    startDepth := r.startDepth
    maxDepth := r.maxDepth
    timestamp := if timestamped ∧ r.timestamp ≠ 0 then some r.timestamp else none }

/-- The memcached `resolve` namespace, as the partial map it denotes. -/
abbrev Cache := Key → Option Entry

/-- `memcache_client.delete(DataType.resolve, key)`. -/
def cacheDelete (c : Cache) (k : Key) : Cache :=
  fun q => if q = k then none else c q

/-- `memcache_client.set(DataType.resolve, key, data)`. -/
def cacheSet (c : Cache) (k : Key) (e : Entry) : Cache :=
  fun q => if q = k then some e else c q

/-- Local predicate `_packages_changed` of `_get_cached_solve`: true iff some
cached variant handle materializes to a variant whose current state handle
differs from the one recorded in `variant_states_dict` (a missing record also
counts as changed, as `dict.get` yields `None` there).  Cached solver dicts
always carry a handle list, since only solved solves are stored; the `get`
default `[]` is modelled by `Option.getD`. -/
def packagesChanged (env : Env) (e : Entry) : Bool :=
  (e.solverDict.variantHandles.getD []).any fun h =>
    let v := env.getVariant h
    decide (e.variantStates.lookup v.name ≠ some (env.variantState v.resource))

/-- Local predicate `_releases_since_solve`: true iff some package recorded in
`release_times_dict` now reports a different last release time. -/
def releasesSince (env : Env) (paths : List String) (e : Entry) : Bool :=
  e.releaseTimes.any fun p => decide (env.lastReleaseTime p.1 paths ≠ p.2)

/-- Local predicate `_timestamp_is_earlier`: true iff the resolver timestamp is
strictly earlier than some release time recorded in the entry. -/
def timestampEarlier (timestamp : Nat) (e : Entry) : Bool :=
  e.releaseTimes.any fun p => decide (timestamp < p.2)

/-- Outcome of `_get_cached_solve`: a hit carrying the cached `solver_dict`, a
miss (the method returns `None`), or the uncaught `TypeError` raised at
resolver.py line 238, where the local helper `_hit` - declared as
`def _hit(data)` - is invoked as `_hit()` with no argument. -/
inductive LookupOutcome where
  | hit (solverDict : SolverDict)
  | miss
  | typeError
deriving DecidableEq, Repr

/-- Second phase of the timestamped branch of `_get_cached_solve` (lines
240-247): fetch the timestamped entry; miss if absent; if packages changed,
delete it and miss; else hit. -/
def getCachedSolveTimestamped (r : Resolver) (cfg : Config) (env : Env)
    (cache : Cache) : LookupOutcome × Cache :=
  let tKey := memcacheKey r cfg env true
  match cache tKey with
  | none => (LookupOutcome.miss, cache)
  | some e =>
    if packagesChanged env e then (LookupOutcome.miss, cacheDelete cache tKey)
    else (LookupOutcome.hit e.solverDict, cache)

/-- `Resolver._get_cached_solve` (lines 171-258): returns the outcome together
with the cache state after any deletions.  Caching bypass returns `None`
(modelled as a miss).  With a nonzero timestamp, the fresh non-timestamped
entry path reaches `return _hit()` (line 238), which raises `TypeError`
because `_hit` requires its `data` argument; the other hit sites pass `data`. -/
def getCachedSolve (r : Resolver) (cfg : Config) (env : Env) (cache : Cache) :
    LookupOutcome × Cache :=
  if ¬(cfg.resolveCaching ∧ r.caching ∧ cfg.memcacheEnabled) then
    (LookupOutcome.miss, cache)
  else
    let ntKey := memcacheKey r cfg env false
    if r.timestamp ≠ 0 then
      match cache ntKey with
      | some e =>
        if packagesChanged env e then
          getCachedSolveTimestamped r cfg env (cacheDelete cache ntKey)
        else if releasesSince env r.packagePaths e then
          getCachedSolveTimestamped r cfg env (cacheDelete cache ntKey)
        else if ¬timestampEarlier r.timestamp e then
          (LookupOutcome.typeError, cache)
        else
          getCachedSolveTimestamped r cfg env cache
      | none => getCachedSolveTimestamped r cfg env cache
    else
      match cache ntKey with
      | none => (LookupOutcome.miss, cache)
      | some e =>
        if packagesChanged env e then
          (LookupOutcome.miss, cacheDelete cache ntKey)
        else if releasesSince env r.packagePaths e then
          (LookupOutcome.miss, cacheDelete cache ntKey)
        else (LookupOutcome.hit e.solverDict, cache)

/-- Python-dict update on an association list: replace the value of an existing
name in place, else append the binding. -/
def dictInsert (l : List (String × α)) (k : String) (v : α) :
    List (String × α) :=
  match l with
  | [] => [(k, v)]
  | (q, w) :: rest =>
    if q = k then (k, v) :: rest else (q, w) :: dictInsert rest k v

/-- The per-variant loop of `_set_cached_solve` (lines 359-375): walk the
resolved variants accumulating `releases_since_solve`, `release_times_dict`
and `variant_states_dict`; return early (storing nothing) as soon as a last
release time of 0 is seen. -/
def storeScan (env : Env) (paths : List String) (timestamp : Nat) :
    List Variant → Bool × List (String × Nat) × List (String × StateHandle) →
    Option (Bool × List (String × Nat) × List (String × StateHandle))
  | [], acc => some acc
  | v :: rest, (rs, rt, vs) =>
    let t := env.lastReleaseTime v.name paths
    if t = 0 then none
    else
      storeScan env paths timestamp rest
        (rs || (decide (timestamp ≠ 0) && decide (timestamp < t)),
         dictInsert rt v.name t,
         dictInsert vs v.name (env.variantState v.resource))

/-- `Resolver._set_cached_solve`: returns the single cache write performed, if
any, as a key/entry pair.  No write happens when caching is bypassed, when the
status is not `solved`, or when some resolved package has an unknown (zero)
last release time.  The key is timestamped iff the resolver timestamp is
nonzero and a release newer than it was seen (Python
`timestamped = (self.timestamp and releases_since_solve)`).  The resolver
state itself is never modified by this step. -/
def setCachedSolve (r : Resolver) (cfg : Config) (env : Env)
    (solverDict : SolverDict) : Option (Key × Entry) :=
  if ¬(cfg.resolveCaching ∧ r.caching ∧ cfg.memcacheEnabled) then none
  else if r.status ≠ ResolverStatus.solved then none
  else
    match storeScan env r.packagePaths r.timestamp
        (r.resolvedPackages.getD []) (false, [], []) with
    | none => none
    | some (rs, rt, vs) =>
      let timestamped := decide (r.timestamp ≠ 0) && rs
      some (memcacheKey r cfg env timestamped,
            { solverDict := solverDict, releaseTimes := rt, variantStates := vs })

/-- Apply the write of `setCachedSolve` (i.e. the `memcache_client.set` call,
when it happens) to a cache state. -/
def applyWrite (c : Cache) : Option (Key × Entry) → Cache
  | none => c
  | some (k, e) => cacheSet c k e

/-- The `release_times_dict` built by a completed store loop, as a fold of
dict updates over the resolved variants in order. -/
def specReleaseTimes (env : Env) (paths : List String) (l : List Variant) :
    List (String × Nat) :=
  l.foldl (fun acc v => dictInsert acc v.name (env.lastReleaseTime v.name paths)) []

/-- The `variant_states_dict` built by a completed store loop. -/
def specVariantStates (env : Env) (l : List Variant) :
    List (String × StateHandle) :=
  l.foldl (fun acc v => dictInsert acc v.name (env.variantState v.resource)) []

/-- Observable state of one external solver run (`rez.solver.Solver` after
`solve()`), as consumed by `_solve` and `_solver_to_dict`: status, the
`is_partial` flag (field `incomplete` here), graph, timings, abort reason,
failure description, and the opaque `userdata` handles of the resolved
variants. -/
structure SolverOutput where
  status : SolverStatus
  incomplete : Bool
  graph : Nat
  solveTime : Nat
  loadTime : Nat
  abortReason : String
  failureDescription : String
  resolvedUserdata : List VariantHandle
deriving DecidableEq, Repr

/-- `Resolver._solver_to_dict`: project a solver into a `solver_dict`;
unsolved maps to `aborted` with the abort reason, failed keeps its failure
description, solved collects the resolved variants' userdata handles. -/
def solverToDict (s : SolverOutput) : SolverDict :=
  match s.status with
  | SolverStatus.unsolved =>
    { status := ResolverStatus.aborted
      graph := s.graph
      solveTime := s.solveTime
      loadTime := s.loadTime
      failureDescription := some s.abortReason
      variantHandles := none }
  | SolverStatus.failed =>
    { status := ResolverStatus.failed
      graph := s.graph
      solveTime := s.solveTime
      loadTime := s.loadTime
      failureDescription := some s.failureDescription
      variantHandles := none }
  | SolverStatus.solved =>
    { status := ResolverStatus.solved
      graph := s.graph
      solveTime := s.solveTime
      loadTime := s.loadTime
      failureDescription := none
      variantHandles := some s.resolvedUserdata }

/-- `Resolver._set_result`: copy status, graph, timings and failure
description from the `solver_dict`; materialize the resolved variants (in
order) only on `solved`, leaving them `None` otherwise. -/
def setResult (r : Resolver) (env : Env) (sd : SolverDict) : Resolver :=
  { r with
    status := sd.status
    graph := some sd.graph
    solveTime := sd.solveTime
    loadTime := sd.loadTime
    failureDescription := sd.failureDescription
    resolvedPackages :=
      if sd.status = ResolverStatus.solved then
        some ((sd.variantHandles.getD []).map env.getVariant)
      else none }

/-- The stop test of the iterative loop in `_solve` that does not involve the
depth cap: `not solver.is_partial or solver.status == SolverStatus.solved`. -/
def stopCond (s : SolverOutput) : Bool :=
  !s.incomplete || decide (s.status = SolverStatus.solved)

/-- The full break test of the loop (line 430-432):
`not is_partial or status == solved or (max_depth and depth >= max_depth)`. -/
def breakCond (maxDepth : Nat) (s : SolverOutput) (depth : Nat) : Bool :=
  stopCond s || (decide (maxDepth ≠ 0) && decide (maxDepth ≤ depth))

/-- The depth update of the loop (lines 435-437): double, then clamp to
`max_depth` when that is nonzero. -/
def nextDepth (maxDepth depth : Nat) : Nat :=
  if maxDepth ≠ 0 then min (depth * 2) maxDepth else depth * 2

/-- The iterative `while True` loop of `_solve` (lines 423-437), with the
external solver abstracted as a deterministic function from the depth it is
invoked at to its observable outcome, and an explicit fuel bound on the
number of iterations.  Returns `some (n, d)` when the loop breaks after `n`
solver invocations with final depth `d`, and `none` when the fuel is
exhausted before the break condition holds. -/
def iterSolve (oracle : Nat → SolverOutput) (maxDepth : Nat) :
    Nat → Nat → Option (Nat × Nat)
  | 0, _ => none
  | fuel + 1, depth =>
    let s := oracle depth
    if breakCond maxDepth s depth then some (1, depth)
    else
      match iterSolve oracle maxDepth fuel (nextDepth maxDepth depth) with
      | some (n, d) => some (n + 1, d)
      | none => none

/-- The iteration bound claimed for the driver: with positive `start_depth`
and `max_depth`, at most `ceil(log2(max_depth / start_depth)) + 1` solver
invocations.  `(m + s - 1) / s` is the Nat ceiling of `m / s`, and
`Nat.clog 2` its ceiling base-2 logarithm. -/
def iterBound (startDepth maxDepth : Nat) : Nat :=
  Nat.clog 2 ((maxDepth + startDepth - 1) / startDepth) + 1

/-! Concrete fixtures: a small repository environment and resolver instances
used to evaluate the definitions on closed inputs. -/

/-- Fixture configuration with caching fully enabled. -/
def exCfg : Config :=
  { resolveCaching := true, pruneFailedGraph := false, memcacheEnabled := true }

/-- Fixture environment: one package "A" released at time 50 whose single
variant has state handle 7; unknown names report release time 0; repository
uids are the paths themselves. -/
def exEnv : Env :=
  { getVariant := fun h => { name := "A", resource := h }
    lastReleaseTime := fun n _ => if n = "A" then 50 else 0
    variantState := fun _ => 7
    repoUid := fun p => p }

/-- Fixture resolver with all-default arguments (timestamp 0, caching on). -/
def exBase : Resolver :=
  { packageRequests := ["A"]
    packagePaths := ["repo"]
    timestamp := 0
    building := false
    caching := true
    maxDepth := 0
    startDepth := 0
    status := ResolverStatus.pending
    resolvedPackages := none
    failureDescription := none
    graph := none
    solveTime := 0
    loadTime := 0
    fromCache := false }

/-- Fixture solved solver dict carrying one variant handle. -/
def exSD : SolverDict :=
  { status := ResolverStatus.solved
    graph := 0
    solveTime := 0
    loadTime := 0
    failureDescription := none
    variantHandles := some [0] }

/-- Fixture cache entry consistent with `exEnv`: release time 50 for "A" and
state handle 7 for its variant. -/
def exE0 : Entry :=
  { solverDict := exSD, releaseTimes := [("A", 50)], variantStates := [("A", 7)] }

/-- Fixture cache holding `exE0` under the non-timestamped key of `exBase`. -/
def exCache : Cache :=
  fun k => if k = memcacheKey exBase exCfg exEnv false then some exE0 else none

/-- Fixture resolver identical to `exBase` but with timestamp 100 (later than
every release recorded in `exE0`). -/
def exR1 : Resolver := { exBase with timestamp := 100 }

/-- Fixture variant of package "A". -/
def exVariantA : Variant := { name := "A", resource := 0 }

/-- Fixture resolver in the solved state with one resolved variant of "A". -/
def exR2 : Resolver :=
  { exBase with
    status := ResolverStatus.solved
    resolvedPackages := some [exVariantA] }

/-- Fixture resolver in the solved state whose resolved package "Z" has no
known release time in `exEnv`. -/
def exR4 : Resolver :=
  { exBase with
    status := ResolverStatus.solved
    resolvedPackages := some [{ name := "Z", resource := 1 }] }

/-- Fixture external solver run that failed with a conflict. -/
def exFailedSolver : SolverOutput :=
  { status := SolverStatus.failed
    incomplete := false
    graph := 0
    solveTime := 0
    loadTime := 0
    abortReason := ""
    failureDescription := "conflict"
    resolvedUserdata := [] }

/-- Fixture resolver whose request list repeats a request. -/
def exR9 : Resolver := { exBase with packageRequests := ["a", "a"] }

/-- Fixture solver outcome that stops the iterative loop (solved, complete). -/
def exStopOutcome : SolverOutput :=
  { status := SolverStatus.solved
    incomplete := false
    graph := 0
    solveTime := 0
    loadTime := 0
    abortReason := ""
    failureDescription := ""
    resolvedUserdata := [0] }

/-- Fixture solver outcome that keeps the iterative loop going (failed at the
current depth with more packages left to load). -/
def exLoopOutcome : SolverOutput :=
  { status := SolverStatus.failed
    incomplete := true
    graph := 0
    solveTime := 0
    loadTime := 0
    abortReason := ""
    failureDescription := "depth limited"
    resolvedUserdata := [] }

/-- Fixture solver oracle: depth-limited below depth 16, solved from 16 on. -/
def exOracle : Nat → SolverOutput := fun depth =>
  if 16 ≤ depth then exStopOutcome else exLoopOutcome

/-! Theorems. -/

/-- Claim C1: with a nonzero resolver timestamp and a current non-timestamped
entry (packages unchanged, no releases since, timestamp not earlier than any
recorded release), the lookup does NOT return the entry as a hit: line 238 of
resolver.py executes `return _hit()`, invoking the local helper declared as
`def _hit(data)` without its required argument, which raises `TypeError`.
This closed theorem evaluates the lookup on such an input. -/
theorem c1_fresh_entry_with_timestamp_raises :
    exCache (memcacheKey exR1 exCfg exEnv false) = some exE0
    ∧ packagesChanged exEnv exE0 = false
    ∧ releasesSince exEnv exR1.packagePaths exE0 = false
    ∧ timestampEarlier exR1.timestamp exE0 = false
    ∧ (getCachedSolve exR1 exCfg exEnv exCache).1 = LookupOutcome.typeError := by
  decide

/-- Claim C5: the store step writes nothing when the resolve status is not
`solved` (failed, aborted, or still pending), for every configuration,
environment and solver dict. -/
theorem c5_no_caching_of_failure (r : Resolver) (cfg : Config) (env : Env)
    (sd : SolverDict) (h : r.status ≠ ResolverStatus.solved) :
    setCachedSolve r cfg env sd = none := by
  simp [setCachedSolve, h]

theorem c5_no_caching_of_failure_witness :
    setCachedSolve { exBase with status := ResolverStatus.failed } exCfg exEnv exSD
      = none :=
  c5_no_caching_of_failure _ _ _ _ (by decide)

/-- Claim C7: construction fails (the `max_depth >= start_depth` assertion
raises) exactly when both depths are nonzero and `max_depth < start_depth`;
construction succeeds when either depth is zero or `max_depth >= start_depth`. -/
theorem c7_constructor_depth_validation (reqs paths : List String) (ts : Nat)
    (b c : Bool) (maxDepth startDepth : Int) :
    (maxDepth ≠ 0 → startDepth ≠ 0 → maxDepth < startDepth →
      mkResolver reqs paths ts b c maxDepth startDepth =
        Except.error "AssertionError")
    ∧ ((maxDepth = 0 ∨ startDepth = 0 ∨ startDepth ≤ maxDepth) →
      ∃ res, mkResolver reqs paths ts b c maxDepth startDepth = Except.ok res) := by
  constructor
  · intro h1 h2 h3
    have hc : maxDepth ≠ 0 ∧ startDepth ≠ 0 ∧ ¬(startDepth ≤ maxDepth) :=
      ⟨h1, h2, by omega⟩
    simp only [mkResolver, if_pos hc]
  · intro h
    have hc : ¬(maxDepth ≠ 0 ∧ startDepth ≠ 0 ∧ ¬(startDepth ≤ maxDepth)) := by
      omega
    exact ⟨_, by unfold mkResolver; rw [if_neg hc]⟩

theorem c7_constructor_depth_validation_witness :
    mkResolver ["A"] ["repo"] 0 false true 2 5 = Except.error "AssertionError" :=
  (c7_constructor_depth_validation ["A"] ["repo"] 0 false true 2 5).1
    (by decide) (by decide) (by decide)

/-- Claim C8: after a live solve whose solver status is not `solved`, the
projection through `_solver_to_dict` and `_set_result` leaves the resolver in
a non-solved state with `resolved_packages` unpopulated and a failure
description present (the abort reason for aborted, the solver failure
description for failed).  Only solved dicts are ever cached, so the cache-hit
path never installs a non-solved result. -/
theorem c8_non_solved_projection (r : Resolver) (env : Env) (s : SolverOutput)
    (h : s.status ≠ SolverStatus.solved) :
    (setResult r env (solverToDict s)).status ≠ ResolverStatus.solved
    ∧ (setResult r env (solverToDict s)).resolvedPackages = none
    ∧ (setResult r env (solverToDict s)).failureDescription.isSome = true := by
  cases hs : s.status <;> simp_all [solverToDict, setResult]

theorem c8_non_solved_projection_witness :
    (setResult exBase exEnv (solverToDict exFailedSolver)).resolvedPackages
      = none :=
  (c8_non_solved_projection exBase exEnv exFailedSolver (by decide)).2.1

/-- Claim C9 counterexample: applying a genuine permutation (list reversal) to
a request list that repeats a request leaves the memcache key unchanged, so it
is not the case that every permutation of the request list changes the key. -/
theorem c9_permutation_counterexample :
    List.Perm (List.reverse exR9.packageRequests) exR9.packageRequests
    ∧ memcacheKey
        { exR9 with packageRequests := List.reverse exR9.packageRequests }
        exCfg exEnv false
      = memcacheKey exR9 exCfg exEnv false :=
  ⟨List.reverse_perm _, by decide⟩

/-- Claim C9 (amended): two resolvers with identical ordered inputs produce
identical keys, and a permutation of the request list (or of the package
paths) changes the key whenever it changes the ordered sequence of rendered
request strings (respectively, of repository ids derived from the paths). -/
theorem c9_key_order_sensitivity (r q : Resolver) (cfg : Config) (env : Env)
    (ts : Bool) :
    ((r.packageRequests = q.packageRequests ∧ r.packagePaths = q.packagePaths
      ∧ r.building = q.building ∧ r.startDepth = q.startDepth
      ∧ r.maxDepth = q.maxDepth ∧ r.timestamp = q.timestamp) →
      memcacheKey r cfg env ts = memcacheKey q cfg env ts)
    ∧ ((r.packageRequests ≠ q.packageRequests
        ∨ r.packagePaths.map env.repoUid ≠ q.packagePaths.map env.repoUid) →
      memcacheKey r cfg env ts ≠ memcacheKey q cfg env ts) := by
  constructor
  · rintro ⟨h1, h2, h3, h4, h5, h6⟩
    simp [memcacheKey, h1, h2, h3, h4, h5, h6]
  · rintro (h | h) heq
    · exact h (congrArg Key.request heq)
    · exact h (congrArg Key.repoIds heq)

theorem c9_key_order_sensitivity_witness :
    memcacheKey { exBase with packageRequests := ["a", "b"] } exCfg exEnv false
      ≠ memcacheKey { exBase with packageRequests := ["b", "a"] } exCfg exEnv false :=
  (c9_key_order_sensitivity _ _ exCfg exEnv false).2 (Or.inl (by decide))

/-- Claim C10: with timestamp 0 the timestamped and non-timestamped memcache
keys coincide, because the timestamp element is appended only when the
timestamp itself is nonzero. -/
theorem c10_zero_timestamp_keys_coincide (r : Resolver) (cfg : Config)
    (env : Env) (h : r.timestamp = 0) :
    memcacheKey r cfg env true = memcacheKey r cfg env false := by
  simp [memcacheKey, h]

theorem c10_zero_timestamp_keys_coincide_witness :
    memcacheKey exBase exCfg exEnv true = memcacheKey exBase exCfg exEnv false :=
  c10_zero_timestamp_keys_coincide exBase exCfg exEnv rfl

/-- When every resolved variant has a nonzero last release time, the store
loop completes and returns the accumulated releases-since flag and the two
dicts, expressed as an any-test and folds over the variant list. -/
theorem storeScan_complete (env : Env) (paths : List String) (T : Nat) :
    ∀ (l : List Variant) (b : Bool) (rt : List (String × Nat))
      (vs : List (String × StateHandle)),
      (∀ v ∈ l, env.lastReleaseTime v.name paths ≠ 0) →
      storeScan env paths T l (b, rt, vs) =
        some (b || l.any (fun v =>
                decide (T ≠ 0) && decide (T < env.lastReleaseTime v.name paths)),
              l.foldl (fun acc v =>
                dictInsert acc v.name (env.lastReleaseTime v.name paths)) rt,
              l.foldl (fun acc v =>
                dictInsert acc v.name (env.variantState v.resource)) vs) := by
  intro l
  induction l with
  | nil =>
    intro b rt vs _
    simp [storeScan]
  | cons v rest ih =>
    intro b rt vs h
    have hv : env.lastReleaseTime v.name paths ≠ 0 := h v (List.mem_cons_self v rest)
    have hrest : ∀ w ∈ rest, env.lastReleaseTime w.name paths ≠ 0 :=
      fun w hw => h w (List.mem_cons_of_mem v hw)
    simp only [storeScan, if_neg hv]
    rw [ih _ _ _ hrest]
    simp [List.any_cons, Bool.or_assoc]

/-- As soon as some resolved variant has a zero last release time, the store
loop aborts with no result, from any accumulator state. -/
theorem storeScan_zero (env : Env) (paths : List String) (T : Nat) :
    ∀ (l : List Variant) (acc : Bool × List (String × Nat) × List (String × StateHandle)),
      (∃ v ∈ l, env.lastReleaseTime v.name paths = 0) →
      storeScan env paths T l acc = none := by
  intro l
  induction l with
  | nil =>
    rintro acc ⟨v, hv, _⟩
    simp at hv
  | cons v rest ih =>
    rintro ⟨rs, rt, vs⟩ ⟨w, hw, hz⟩
    rcases List.mem_cons.1 hw with h | h
    · subst h
      simp [storeScan, hz]
    · simp only [storeScan]
      split
      · rfl
      · exact ih _ ⟨w, h, hz⟩

/-- Claim C2: when the store step runs with caching enabled, status `solved`
and every resolved package reporting a nonzero last release time, exactly one
entry is written: the triple `(solver_dict, release_times, variant_states)`,
and its key carries the timestamp element iff the resolver timestamp is
nonzero and strictly smaller than some resolved package's current last
release time (otherwise the non-timestamped key is used). -/
theorem c2_store_key_selection (r : Resolver) (cfg : Config) (env : Env)
    (sd : SolverDict) (l : List Variant)
    (hcfg : cfg.resolveCaching = true) (hca : r.caching = true)
    (hmc : cfg.memcacheEnabled = true)
    (hst : r.status = ResolverStatus.solved)
    (hl : r.resolvedPackages = some l)
    (hnz : ∀ v ∈ l, env.lastReleaseTime v.name r.packagePaths ≠ 0) :
    setCachedSolve r cfg env sd =
      some (memcacheKey r cfg env
              (decide (r.timestamp ≠ 0)
                && l.any (fun v =>
                    decide (r.timestamp < env.lastReleaseTime v.name r.packagePaths))),
            { solverDict := sd
              releaseTimes := specReleaseTimes env r.packagePaths l
              variantStates := specVariantStates env l })
    ∧ ((memcacheKey r cfg env
          (decide (r.timestamp ≠ 0)
            && l.any (fun v =>
                decide (r.timestamp < env.lastReleaseTime v.name r.packagePaths)))).timestamp
        = some r.timestamp
      ↔ r.timestamp ≠ 0
        ∧ ∃ v ∈ l, r.timestamp < env.lastReleaseTime v.name r.packagePaths) := by
  have hbool : (decide (r.timestamp ≠ 0)
      && (false || l.any (fun v =>
            decide (r.timestamp ≠ 0)
              && decide (r.timestamp < env.lastReleaseTime v.name r.packagePaths))))
      = (decide (r.timestamp ≠ 0)
          && l.any (fun v =>
              decide (r.timestamp < env.lastReleaseTime v.name r.packagePaths))) := by
    cases hT : decide (r.timestamp ≠ 0) <;> simp [hT]
  constructor
  · unfold setCachedSolve
    rw [if_neg (by simp [hcfg, hca, hmc]), if_neg (by simp [hst]), hl]
    simp only [Option.getD_some]
    rw [storeScan_complete env r.packagePaths r.timestamp l false [] [] hnz,
      ← hbool]
    rfl
  · by_cases hT : r.timestamp = 0
    · simp [memcacheKey, hT]
    · by_cases hany : (l.any (fun v =>
          decide (r.timestamp < env.lastReleaseTime v.name r.packagePaths))) = true
      · obtain ⟨v, hv, hlt⟩ := List.any_eq_true.1 hany
        rw [decide_eq_true_eq] at hlt
        have hcond : (decide (r.timestamp ≠ 0)
            && l.any (fun v =>
                decide (r.timestamp < env.lastReleaseTime v.name r.packagePaths))) = true
            ∧ r.timestamp ≠ 0 := by
          refine ⟨?_, hT⟩
          rw [Bool.and_eq_true]
          exact ⟨decide_eq_true hT, hany⟩
        simp only [memcacheKey]
        rw [if_pos hcond]
        simp only [Option.some.injEq, true_iff]
        exact ⟨hT, v, hv, hlt⟩
      · simp only [memcacheKey]
        rw [if_neg]
        · constructor
          · intro hcon
            cases hcon
          · rintro ⟨-, v, hv, hlt⟩
            exact absurd (List.any_eq_true.2 ⟨v, hv, decide_eq_true hlt⟩) hany
        · rintro ⟨hb, -⟩
          rw [Bool.and_eq_true] at hb
          exact hany hb.2

theorem c2_store_key_selection_witness :
    setCachedSolve exR2 exCfg exEnv exSD =
      some (memcacheKey exR2 exCfg exEnv
              (decide (exR2.timestamp ≠ 0)
                && List.any [exVariantA] (fun v =>
                    decide (exR2.timestamp < exEnv.lastReleaseTime v.name exR2.packagePaths))),
            { solverDict := exSD
              releaseTimes := specReleaseTimes exEnv exR2.packagePaths [exVariantA]
              variantStates := specVariantStates exEnv [exVariantA] }) :=
  (c2_store_key_selection exR2 exCfg exEnv exSD [exVariantA] rfl rfl rfl rfl rfl
    (by decide)).1

/-- Claim C4: for a solved resolve in which some resolved package has an
unknown (zero) last release time, the store step performs no write at all -
applying it to any cache state leaves the cache untouched - while the
resolver's own result is never modified by the store step (which only reads
it). -/
theorem c4_zero_release_time_skips_store (r : Resolver) (cfg : Config)
    (env : Env) (sd : SolverDict) (l : List Variant)
    (hst : r.status = ResolverStatus.solved)
    (hl : r.resolvedPackages = some l)
    (hz : ∃ v ∈ l, env.lastReleaseTime v.name r.packagePaths = 0) :
    setCachedSolve r cfg env sd = none
    ∧ ∀ cache : Cache, applyWrite cache (setCachedSolve r cfg env sd) = cache := by
  have hmain : setCachedSolve r cfg env sd = none := by
    unfold setCachedSolve
    split
    · rfl
    · rw [if_neg (by simp [hst]), hl]
      simp only [Option.getD_some]
      rw [storeScan_zero env r.packagePaths r.timestamp l _ hz]
  exact ⟨hmain, fun cache => by rw [hmain]; rfl⟩

theorem c4_zero_release_time_skips_store_witness :
    setCachedSolve exR4 exCfg exEnv exSD = none :=
  (c4_zero_release_time_skips_store exR4 exCfg exEnv exSD
    [{ name := "Z", resource := 1 }] (by decide) (by decide) (by decide)).1

/-- Claim C3: with timestamp 0 and caching enabled, the lookup returns a hit
with the stored solver dict iff the non-timestamped entry exists and neither
`packages_changed` nor `releases_since` holds for it; when either predicate
holds, the returned cache state has the stale entry deleted alongside the
miss. -/
theorem c3_lookup_timestamp_zero (r : Resolver) (cfg : Config) (env : Env)
    (cache : Cache) (h0 : r.timestamp = 0)
    (hcfg : cfg.resolveCaching = true) (hca : r.caching = true)
    (hmc : cfg.memcacheEnabled = true) :
    (∀ sd, (getCachedSolve r cfg env cache).1 = LookupOutcome.hit sd →
      ∃ e, cache (memcacheKey r cfg env false) = some e
        ∧ packagesChanged env e = false
        ∧ releasesSince env r.packagePaths e = false
        ∧ sd = e.solverDict)
    ∧ (∀ e, cache (memcacheKey r cfg env false) = some e →
        packagesChanged env e = false →
        releasesSince env r.packagePaths e = false →
        (getCachedSolve r cfg env cache).1 = LookupOutcome.hit e.solverDict)
    ∧ (∀ e, cache (memcacheKey r cfg env false) = some e →
        (packagesChanged env e = true ∨ releasesSince env r.packagePaths e = true) →
        (getCachedSolve r cfg env cache).1 = LookupOutcome.miss
          ∧ (getCachedSolve r cfg env cache).2 (memcacheKey r cfg env false) = none) := by
  have key : getCachedSolve r cfg env cache =
      match cache (memcacheKey r cfg env false) with
      | none => (LookupOutcome.miss, cache)
      | some e =>
        if packagesChanged env e then
          (LookupOutcome.miss, cacheDelete cache (memcacheKey r cfg env false))
        else if releasesSince env r.packagePaths e then
          (LookupOutcome.miss, cacheDelete cache (memcacheKey r cfg env false))
        else (LookupOutcome.hit e.solverDict, cache) := by
    unfold getCachedSolve
    rw [if_neg (by simp [hcfg, hca, hmc]), if_neg (by simp [h0])]
  rcases hcase : cache (memcacheKey r cfg env false) with _ | e
  · rw [hcase] at key
    dsimp only at key
    refine ⟨?_, ?_, ?_⟩
    · intro sd hhit
      rw [key] at hhit
      simp at hhit
    · intro e he
      cases he
    · intro e he
      cases he
  · rw [hcase] at key
    dsimp only at key
    rcases hpc : packagesChanged env e with _ | _
    · rcases hrs : releasesSince env r.packagePaths e with _ | _
      · rw [hpc, hrs, if_neg Bool.false_ne_true, if_neg Bool.false_ne_true] at key
        refine ⟨?_, ?_, ?_⟩
        · intro sd hhit
          rw [key] at hhit
          cases hhit
          exact ⟨e, rfl, hpc, hrs, rfl⟩
        · intro f hf _ _
          cases hf
          rw [key]
        · intro f hf hbad
          cases hf
          rcases hbad with hb | hb
          · rw [hpc] at hb
            cases hb
          · rw [hrs] at hb
            cases hb
      · rw [hpc, hrs, if_neg Bool.false_ne_true, if_pos rfl] at key
        refine ⟨?_, ?_, ?_⟩
        · intro sd hhit
          rw [key] at hhit
          simp at hhit
        · intro f hf _ hrsf
          cases hf
          rw [hrs] at hrsf
          cases hrsf
        · intro f hf _
          cases hf
          rw [key]
          exact ⟨rfl, by simp [cacheDelete]⟩
    · rw [hpc, if_pos rfl] at key
      refine ⟨?_, ?_, ?_⟩
      · intro sd hhit
        rw [key] at hhit
        simp at hhit
      · intro f hf hpcf _
        cases hf
        rw [hpc] at hpcf
        cases hpcf
      · intro f hf _
        cases hf
        rw [key]
        exact ⟨rfl, by simp [cacheDelete]⟩

theorem c3_lookup_timestamp_zero_witness :
    (getCachedSolve exBase exCfg exEnv exCache).1 = LookupOutcome.hit exE0.solverDict :=
  (c3_lookup_timestamp_zero exBase exCfg exEnv exCache rfl rfl rfl rfl).2.1
    exE0 (by decide) (by decide) (by decide)

/-- One-step unfolding of the iterative loop with positive fuel. -/
theorem iterSolve_succ (oracle : Nat → SolverOutput) (m fuel depth : Nat) :
    iterSolve oracle m (fuel + 1) depth =
      if breakCond m (oracle depth) depth then some (1, depth)
      else
        match iterSolve oracle m fuel (nextDepth m depth) with
        | some (n, d) => some (n + 1, d)
        | none => none := rfl

/-- An iteration whose solver reports solved or a non-partial exploration
breaks the loop immediately: one invocation, at the current depth. -/
theorem iterSolve_stop (oracle : Nat → SolverOutput) (maxDepth fuel depth : Nat)
    (h : stopCond (oracle depth) = true) :
    iterSolve oracle maxDepth (fuel + 1) depth = some (1, depth) := by
  simp [iterSolve, breakCond, h]

/-- The invocation count reported by the loop never exceeds the fuel. -/
theorem iterSolve_count_le (oracle : Nat → SolverOutput) (m : Nat) :
    ∀ (fuel depth n d : Nat),
      iterSolve oracle m fuel depth = some (n, d) → n ≤ fuel := by
  intro fuel
  induction fuel with
  | zero =>
    intro depth n d h
    simp [iterSolve] at h
  | succ fuel ih =>
    intro depth n d h
    simp only [iterSolve] at h
    split at h
    · cases h
      exact Nat.one_le_iff_ne_zero.2 (Nat.succ_ne_zero fuel)
    · split at h
      case h_1 p n2 d2 heq =>
        cases h
        exact Nat.succ_le_succ (ih _ _ _ heq)
      case h_2 => cases h

/-- With a positive depth cap `m` and fuel `k + 1`, the loop terminates as
soon as the starting depth doubled `k` times reaches `m` (because the depth
is clamped to `m` and the cap check then breaks the loop). -/
theorem iterSolve_total (oracle : Nat → SolverOutput) (m : Nat) (hm : 0 < m) :
    ∀ (k d : Nat), 0 < d → m ≤ d * 2 ^ k →
      (iterSolve oracle m (k + 1) d).isSome = true := by
  intro k
  induction k with
  | zero =>
    intro d _ hle
    have hbreak : breakCond m (oracle d) d = true := by
      have hd : m ≤ d := by simpa using hle
      simp [breakCond, hm.ne', hd]
    simp [iterSolve, hbreak]
  | succ k ih =>
    intro d hd hle
    cases hb : breakCond m (oracle d) d with
    | true => simp [iterSolve, hb]
    | false =>
      have hdm : d < m := by
        by_contra hcon
        push_neg at hcon
        have : breakCond m (oracle d) d = true := by
          simp [breakCond, hm.ne', hcon]
        rw [this] at hb
        cases hb
      have hnext : m ≤ nextDepth m d * 2 ^ k := by
        unfold nextDepth
        rw [if_pos hm.ne']
        rcases le_or_lt (d * 2) m with h2 | h2
        · rw [min_eq_left h2]
          calc m ≤ d * 2 ^ (k + 1) := hle
          _ = d * 2 * 2 ^ k := by ring
        · rw [min_eq_right h2.le]
          calc m = m * 1 := (mul_one m).symm
          _ ≤ m * 2 ^ k := Nat.mul_le_mul_left m Nat.one_le_two_pow
      have hpos : 0 < nextDepth m d := by
        unfold nextDepth
        rw [if_pos hm.ne']
        exact lt_min (by omega) hm
      obtain ⟨p, hp⟩ := Option.isSome_iff_exists.mp (ih (nextDepth m d) hpos hnext)
      obtain ⟨n, fd⟩ := p
      rw [iterSolve_succ, hb, if_neg Bool.false_ne_true, hp]
      rfl

/-- Arithmetic content of the claimed iteration bound: doubling the start
depth `ceil(log2(ceil(m / s)))` times reaches the cap `m`. -/
theorem iterBound_pow (s m : Nat) (hs : 0 < s) (hm : 0 < m) (hsm : s ≤ m) :
    m ≤ s * 2 ^ Nat.clog 2 ((m + s - 1) / s) := by
  set c := (m + s - 1) / s with hc
  have h2 : c ≤ 2 ^ Nat.clog 2 c := Nat.le_pow_clog (by norm_num) c
  have h3 : s * c + (m + s - 1) % s = m + s - 1 := Nat.div_add_mod (m + s - 1) s
  have h4 : (m + s - 1) % s < s := Nat.mod_lt _ hs
  have h5 : s * c ≤ s * 2 ^ Nat.clog 2 c := Nat.mul_le_mul_left s h2
  omega

/-- With no depth cap, the loop stops at the first depth of the doubling
sequence whose solve reports solved or not-partial, after exactly one
invocation per depth visited. -/
theorem iterSolve_first_stop (oracle : Nat → SolverOutput) :
    ∀ (i d : Nat), (∀ j, j < i → stopCond (oracle (d * 2 ^ j)) = false) →
      stopCond (oracle (d * 2 ^ i)) = true →
      iterSolve oracle 0 (i + 1) d = some (i + 1, d * 2 ^ i) := by
  intro i
  induction i with
  | zero =>
    intro d _ hstop
    have h : stopCond (oracle d) = true := by simpa using hstop
    rw [iterSolve_stop oracle 0 0 d h]
    simp
  | succ i ih =>
    intro d hfail hstop
    have h0 : stopCond (oracle d) = false := by
      simpa using hfail 0 (Nat.succ_pos i)
    have hb : breakCond 0 (oracle d) d = false := by
      simp [breakCond, h0]
    have hrec := ih (d * 2)
      (fun j hj => by
        have h := hfail (j + 1) (Nat.succ_lt_succ hj)
        have e : d * 2 ^ (j + 1) = d * 2 * 2 ^ j := by ring
        rwa [e] at h)
      (by
        have e : d * 2 ^ (i + 1) = d * 2 * 2 ^ i := by ring
        rwa [e] at hstop)
    have hnd : nextDepth 0 d = d * 2 := by simp [nextDepth]
    have e2 : d * 2 * 2 ^ i = d * 2 ^ (i + 1) := by ring
    rw [e2] at hrec
    rw [iterSolve_succ, hb, if_neg Bool.false_ne_true, hnd, hrec]

/-- Claim C6: with positive start depth `s`, the iterative driver of `_solve`
satisfies: (a) for any positive cap `m ≥ s`, fuel `iterBound s m` - that is,
`ceil(log2(m / s)) + 1` - suffices for the loop to break, and the invocation
count it reports never exceeds that bound; (b) any iteration whose solver
reports solved or not-partial breaks the loop at once, for every cap; (c)
with cap 0, the loop terminates at the first depth of the doubling sequence
`s * 2 ^ j` whose solve reports solved or not-partial, using one invocation
per depth visited. -/
theorem c6_iterative_driver_termination (oracle : Nat → SolverOutput) (s : Nat)
    (hs : 0 < s) :
    (∀ m, 0 < m → s ≤ m →
      (iterSolve oracle m (iterBound s m) s).isSome = true
      ∧ ∀ n d, iterSolve oracle m (iterBound s m) s = some (n, d) →
          n ≤ iterBound s m)
    ∧ (∀ m d fuel, stopCond (oracle d) = true →
      iterSolve oracle m (fuel + 1) d = some (1, d))
    ∧ (∀ i, (∀ j, j < i → stopCond (oracle (s * 2 ^ j)) = false) →
      stopCond (oracle (s * 2 ^ i)) = true →
      iterSolve oracle 0 (i + 1) s = some (i + 1, s * 2 ^ i)) := by
  refine ⟨fun m hm hsm => ⟨?_, ?_⟩,
    fun m d fuel h => iterSolve_stop oracle m fuel d h,
    fun i hf h => iterSolve_first_stop oracle i s hf h⟩
  · exact iterSolve_total oracle m hm (Nat.clog 2 ((m + s - 1) / s)) s hs
      (iterBound_pow s m hs hm hsm)
  · intro n d h
    exact iterSolve_count_le oracle m _ _ _ _ h

theorem c6_iterative_driver_termination_witness :
    (iterSolve exOracle 32 (iterBound 4 32) 4).isSome = true :=
  ((c6_iterative_driver_termination exOracle 4 (by decide)).1 32 (by decide)
    (by decide)).1

end Rez
